import Mathlib

/-!
Shallow embedding of `src/main.py` of donlon/ncov-reporting-tool, and proofs
about it.  Python dictionaries are modelled as functions `String → Option Val`,
the uniform random stream of `random.random()` as a function `ℕ → ℝ` together
with a fuel argument bounding the recursion depth (`none` models divergence),
and `math.inf` as the top element of `EReal`.
-/

namespace NRTool

/-- Dynamic values appearing in configuration dictionaries and request
bodies: strings and integers. -/
inductive Val where
  | s (str : String)
  | i (int : ℤ)
  deriving DecidableEq

/-- Values accepted by `parse_time_string`: either a string or a bare
number (numeric passthrough). -/
inductive PyVal where
  | str (s : String)
  | num (q : ℚ)
  deriving DecidableEq

/-- Greedy run of decimal digits at the head of the character list, with the
remaining characters; models a leading regex group of one or more digits. -/
def takeDigits : List Char → List Char × List Char
  | [] => ([], [])
  | c :: cs =>
    if c.isDigit then
      let p := takeDigits cs
      (c :: p.1, p.2)
    else ([], c :: cs)

/-- Drop leading whitespace; models a whitespace-star regex group. -/
def dropSpaces : List Char → List Char
  | [] => []
  | c :: cs => if c.isWhitespace then dropSpaces cs else c :: cs

/-- Decimal value of a digit string, as computed by Python int() on the
captured group. -/
def digitsToNat (ds : List Char) : ℕ :=
  ds.foldl (fun a c => 10 * a + (c.toNat - 48)) 0

/-- Optional minutes group of the regex in `parse_time_string`: one or more
digits followed by a literal m, then optional whitespace.  Returns the
captured value (none when the group did not participate) and the rest of the
input.  The regex is anchored at the start and both groups are optional, so
matching never fails. -/
def matchMin (cs : List Char) : Option ℕ × List Char :=
  match takeDigits cs with
  | ([], _) => (none, cs)
  | (ds, rest) =>
    match rest with
    | 'm' :: rest2 => (some (digitsToNat ds), dropSpaces rest2)
    | _ => (none, cs)

/-- Optional seconds group of the regex: one or more digits followed by a
literal s.  Trailing characters are ignored, as re.match only anchors
at the start. -/
def matchSec (cs : List Char) : Option ℕ :=
  match takeDigits cs with
  | ([], _) => none
  | (ds, rest) =>
    match rest with
    | 's' :: _ => some (digitsToNat ds)
    | _ => none

/-- Captured values of the two regex groups of `parse_time_string` on a
string input: the minutes group and the seconds group. -/
def parse_groups (s : String) : Option ℕ × Option ℕ :=
  match matchMin s.toList with
  | (mi, rest) => (mi, matchSec rest)

/-- String branch of `parse_time_string`, over ℕ: if both regex groups are
empty the result is None (modelled `none`), otherwise 60*min + sec with an
absent group counting as 0. -/
def parse_string_secs (s : String) : Option ℕ :=
  match parse_groups s with
  | (none, none) => none
  | (mi, se) => some (60 * mi.getD 0 + se.getD 0)

/-- Embedding of `parse_time_string`.  A string input is matched against the
regex of optional minutes and seconds groups; a non-string input is returned
unchanged (numeric passthrough).  The source's check that the match object is
falsy is dead code (a zero-length match is still a match object), so it has
no counterpart here. -/
def parse_time_string : PyVal → Option ℚ
  | .str s => (parse_string_secs s).map (fun n => (n : ℚ))
  | .num q => some q

/-- Value drawn in one iteration of `rayleigh_dist` from a uniform draw u:
sigma * sqrt(-2 * log u) when u > 0, and math.inf (the top element of
`EReal`) when u = 0, as in the source's explicit guard. -/
noncomputable def rayleighDraw (sigma u : ℝ) : EReal :=
  if 0 < u then ((sigma * Real.sqrt (-2 * Real.log u) : ℝ) : EReal) else ⊤

/-- Embedding of `rayleigh_dist`.  The stream `us` supplies the successive
results of random.random(); the extra fuel argument bounds the recursion
depth, `none` modelling a computation that has not terminated within the
given fuel.  When the drawn value x reaches the upper bound, the function
recurses on the rest of the stream if the bound is positive and otherwise
returns the bound itself; below the bound it returns x. -/
noncomputable def rayleigh_dist (sigma : ℝ) (upbound : EReal) (us : ℕ → ℝ) : ℕ → Option EReal
  | 0 => none
  | fuel + 1 =>
    let x := rayleighDraw sigma (us 0)
    if upbound ≤ x then
      if 0 < upbound then rayleigh_dist sigma upbound (fun i => us (i + 1)) fuel
      else some upbound
    else some x

/-- Python dictionary with string keys, modelled extensionally. -/
def Dict := String → Option Val

/-- Dictionary update d[k] = v; also the effect of a later entry k: v in a
dict display, which overrides an earlier binding of k. -/
def dinsert (d : Dict) (k : String) (v : Val) : Dict :=
  fun x => if x = k then some v else d x

/-- HTTP response as seen by the caller: status code and parsed JSON body.
The body is kept abstract as a `Val`. -/
structure Response where
  status : ℕ
  body : Val
  deriving DecidableEq

/-- Outcome of one attempt of requests.post: either a raised
RequestException (transport failure) or a response, of any status. -/
inductive Outcome where
  | exn
  | ok (r : Response)
  deriving DecidableEq

/-- Semantics of the retry decorator: attempt i consults the network stream;
a response ends the loop (whatever its status), an exception sleeps `delay`
seconds and retries while tries remain, and exhausting the tries re-raises.
Returns the response together with the total seconds slept before it. -/
def retry_from (delay : ℕ) (net : ℕ → Outcome) : ℕ → ℕ → ℕ → Except Unit (Response × ℕ)
  | _, 0, _ => .error ()
  | i, tries + 1, elapsed =>
    match net i with
    | .ok r => .ok (r, elapsed)
    | .exn => retry_from delay net (i + 1) tries (elapsed + delay)

/-- Embedding of `send_request_with_retry`: the retry decorator is applied
with exceptions=RequestException, tries=10, delay=10.  The response body is
printed and the response returned; nothing inspects the status code. -/
def send_request_with_retry (net : ℕ → Outcome) : Except Unit (Response × ℕ) :=
  retry_from 10 net 0 10 0

/-- Python str() of a dynamic value, as used in the log file name. -/
def valToString : Val → String
  | .s str => str
  | .i int => toString int

/-- JSON record written by `log_task`. -/
structure LogRecord where
  task_id : Val
  payload : Dict
  response : Val

/-- File written by `log_task`: its name and its JSON content. -/
structure LogFile where
  name : String
  record : LogRecord

/-- Embedding of `log_task`: writes the record (task_id, payload, response)
to the file report_(task_id)_(date).log, so the log sink is keyed by task id
and date. -/
def log_task (task_id : Val) (date : String) (payload : Dict) (response : Val) : LogFile :=
  { name := "report_" ++ valToString task_id ++ "_" ++ date ++ ".log",
    record := { task_id := task_id, payload := payload, response := response } }

/-- Calendar date used for the %Y%m%d stamp. -/
structure Date where
  year : ℕ
  month : ℕ
  day : ℕ

/-- Two-digit zero-padded decimal, as produced by %m and %d. -/
def pad2 (n : ℕ) : String := if n < 10 then "0" ++ toString n else toString n

/-- Four-digit zero-padded decimal, as produced by %Y. -/
def pad4 (n : ℕ) : String :=
  if n < 10 then "000" ++ toString n
  else if n < 100 then "00" ++ toString n
  else if n < 1000 then "0" ++ toString n
  else toString n

/-- Local calendar date formatted %Y%m%d. -/
def fmtYYYYMMDD (d : Date) : String := pad4 d.year ++ pad2 d.month ++ pad2 d.day

/-- POST body built by `send_request`: the profile mapping spread first,
then uid, date, created and the fixed form identifier 8749065, later entries
overriding earlier ones as in a Python dict display. -/
def post_body (data : Dict) (uid : Val) (date : String) (created : String) : Dict :=
  dinsert (dinsert (dinsert (dinsert data "uid" uid) "date" (.s date))
    "created" (.s created)) "id" (.i 8749065)

/-- Embedding of `send_request`: stamps the current date (%Y%m%d) and the
epoch-seconds creation time, builds the POST body, performs the request with
retry and, on success, writes the log record; a transport failure that
exhausts the retries propagates as an exception (`none`).  Returns the POST
body and the written log file. -/
def send_request (task_id : Val) (data : Dict) (uid : Val) (now : Date) (epoch : ℕ)
    (net : ℕ → Outcome) : Option (Dict × LogFile) :=
  let date := fmtYYYYMMDD now
  let created := toString epoch
  let pd := post_body data uid date created
  match send_request_with_retry net with
  | .error _ => none
  | .ok (r, _) => some (pd, log_task task_id date pd r.body)

/-- Validated task payload built by `create_task`. -/
structure TaskPayload where
  id : Val
  uid : Val
  cookie : Val
  profile_path : String
  time : String
  rayleigh_sigma : ℚ
  rayleigh_upbound : ℚ
  deriving DecidableEq

/-- Sentinel returned by a job callback to make the scheduler cancel the
job after this run (schedule.CancelJob). -/
inductive Sentinel where
  | cancelJob
  deriving DecidableEq

/-- Embedding of `do_task`: re-reads the profile file from disk, sends the
request, and returns schedule.CancelJob exactly when cancel_job was set.  If
the request exhausts its retries the exception propagates (`error`), and no
sentinel is returned. -/
def do_task (fsRead : String → Dict) (p : TaskPayload) (cancel_job : Bool) (now : Date)
    (epoch : ℕ) (net : ℕ → Outcome) : Except Unit ((Dict × LogFile) × Option Sentinel) :=
  let data := fsRead p.profile_path
  match send_request p.id data p.uid now epoch net with
  | none => .error ()
  | some res => .ok (res, if cancel_job then some .cancelJob else none)

/-- Module-level mutable state: the server clock offset global. -/
structure Globals where
  server_time_offset : ℝ

/-- Action taken by `do_task_check` at trigger time: either register a
one-shot follow-up job running do_task with cancel_job=True after the given
number of seconds, or run do_task immediately and synchronously. -/
inductive Action where
  | deferred (delay_sec : ℤ) (cancel_job : Bool)
  | immediate
  deriving DecidableEq

/-- Embedding of `do_task_check`: jitter is applied only when both sigma and
the upper bound exceed 5 seconds, in which case the floor of a sampled
Rayleigh delay defers the submission via a follow-up job created with
cancel_job=True; otherwise do_task runs immediately.  The globals are in
scope but unread.  `none` models a sampler that did not terminate within the
fuel. -/
noncomputable def do_task_check (g : Globals) (p : TaskPayload) (us : ℕ → ℝ) (fuel : ℕ) :
    Option Action :=
  if 5 < p.rayleigh_sigma ∧ 5 < p.rayleigh_upbound then
    match rayleigh_dist (p.rayleigh_sigma : ℝ) (((p.rayleigh_upbound : ℝ) : EReal)) us fuel with
    | some x => some (.deferred ⌊x.toReal⌋ true)
    | none => none
  else some .immediate

/-- Raw task definition as read from tasks.yaml: every field may be absent. -/
structure RawTask where
  enable : Option Bool
  id : Option Val
  uid : Option Val
  cookie : Option Val
  profile : Option String
  time : Option String
  rayleigh_sigma : Option PyVal
  rayleigh_upbound : Option PyVal
  deriving DecidableEq

/-- Filesystem and environment context consulted by the loader. -/
structure Env where
  data_dir : String
  file_exists : String → Bool
  yaml_valid : String → Bool

/-- Embedding of `create_task`.  Result `some none` models the source
returning True having skipped a disabled task, `some (some p)` models
returning True having registered a daily job for payload p, and `none`
models the bare (falsy) return after a reported error. -/
def create_task (env : Env) (task : RawTask) : Option (Option TaskPayload) :=
  if task.enable = some false then some none else
  match task.id with
  | none => none
  | some tid =>
  match task.uid with
  | none => none
  | some tuid =>
  match task.cookie with
  | none => none
  | some tcookie =>
  match task.profile with
  | none => none
  | some tprofile =>
  let profile_path := env.data_dir ++ "/" ++ tprofile
  if ¬ env.file_exists profile_path then none else
  if ¬ env.yaml_valid profile_path then none else
  let sigmaRes : Option ℚ :=
    match task.rayleigh_sigma with
    | none => some 0
    | some v => parse_time_string v
  match sigmaRes with
  | none => none
  | some sigma =>
  let upRes : Option ℚ :=
    match task.rayleigh_upbound with
    | none => some 0
    | some v => parse_time_string v
  match upRes with
  | none => none
  | some upbound =>
  some (some
    { id := tid, uid := tuid, cookie := tcookie, profile_path := profile_path,
      time := task.time.getD "07:00",
      rayleigh_sigma := sigma, rayleigh_upbound := upbound })

/-- Loop of `load_tasks` over the task list: the first task whose
create_task returns a falsy value aborts the whole load. -/
def load_tasks_list (env : Env) : List RawTask → Bool
  | [] => true
  | t :: ts =>
    match create_task env t with
    | none => false
    | some _ => load_tasks_list env ts

/-- Embedding of `load_tasks`: outer `none` models a missing tasks.yaml,
inner `none` a configuration without a tasks key; otherwise the task list is
loaded task by task. -/
def load_tasks (env : Env) (config : Option (Option (List RawTask))) : Bool :=
  match config with
  | none => false
  | some none => false
  | some (some ts) => load_tasks_list env ts

/-- Exit behaviour of the main block: `some 1` models exit(1) when
load_tasks returned a falsy value, `none` models entering the endless
scheduler loop. -/
def startup_exit (env : Env) (config : Option (Option (List RawTask))) : Option ℕ :=
  if load_tasks env config then none else some 1

/-- Embedding of `update_server_time_offset`.  The assignment in the source
has no global declaration, so it binds a function-local variable: the module
global is returned unchanged, and the computed difference is only printed
(second component). -/
def update_server_time_offset (g : Globals) (serverTime localTime : ℝ) : Globals × ℝ :=
  (g, serverTime - localTime)

/-- Sample environment in which every referenced file exists and parses. -/
def sampleEnv : Env :=
  { data_dir := "/data", file_exists := fun _ => true, yaml_valid := fun _ => true }

/-- Sample enabled task whose cookie field is absent. -/
def sampleTaskNoCookie : RawTask :=
  { enable := none, id := some (.i 1), uid := some (.i 2), cookie := none,
    profile := some "p.yaml", time := none, rayleigh_sigma := none,
    rayleigh_upbound := none }

example : parse_string_secs "5m" = some 300 := by decide
example : parse_string_secs "30s" = some 30 := by decide
example : parse_string_secs "2m15s" = some 135 := by decide
example : parse_string_secs "2m 15s" = some 135 := by decide
example : parse_string_secs "" = none := by decide
example : parse_string_secs "abc" = none := by decide
example : parse_time_string (.num 90) = some 90 := rfl

/-- Whatever the fuel, a value returned by `rayleigh_dist` under a positive
upper bound is strictly below that bound. -/
theorem rayleigh_dist_lt_of_pos (sigma : ℝ) (upbound : EReal) (hub : 0 < upbound) :
    ∀ (fuel : ℕ) (us : ℕ → ℝ) (y : EReal),
      rayleigh_dist sigma upbound us fuel = some y → y < upbound := by
  intro fuel
  induction fuel with
  | zero => intro us y h; simp [rayleigh_dist] at h
  | succ n ih =>
    intro us y h
    rw [rayleigh_dist] at h
    by_cases hx : upbound ≤ rayleighDraw sigma (us 0)
    · rw [if_pos hx, if_pos hub] at h
      exact ih _ y h
    · rw [if_neg hx] at h
      cases h
      exact lt_of_not_le hx

/-- Every drawn value is non-negative when sigma is non-negative: the finite
branch is sigma times a square root, the other branch is math.inf. -/
theorem rayleighDraw_nonneg (sigma u : ℝ) (hs : 0 ≤ sigma) :
    (0 : EReal) ≤ rayleighDraw sigma u := by
  rw [rayleighDraw]
  by_cases hu : 0 < u
  · rw [if_pos hu]
    have h : (0 : ℝ) ≤ sigma * Real.sqrt (-2 * Real.log u) :=
      mul_nonneg hs (Real.sqrt_nonneg _)
    exact_mod_cast h
  · rw [if_neg hu]; exact le_top

/-- With a non-positive upper bound, the first iteration already returns the
bound: the drawn value is at least 0, hence at least the bound, and the
positive-bound recursion branch is not taken. -/
theorem rayleigh_dist_nonpos_bound (sigma : ℝ) (upbound : EReal) (us : ℕ → ℝ)
    (hs : 0 ≤ sigma) (hub : upbound ≤ 0) (fuel : ℕ) :
    rayleigh_dist sigma upbound us (fuel + 1) = some upbound := by
  rw [rayleigh_dist]
  have hx : upbound ≤ rayleighDraw sigma (us 0) :=
    le_trans hub (rayleighDraw_nonneg sigma (us 0) hs)
  rw [if_pos hx, if_neg (not_lt_of_le hub)]

/-- C3: the time-string parser returns 300 on "5m", 30 on "30s", 135 on
"2m15s", an invalid marker (None, which is not an exception and distinct
from 0) on "" and on every string both of whose regex groups are empty, and
passes a bare numeric input through unchanged. -/
theorem C3_parse_time_string_spec :
    parse_time_string (.str "5m") = some 300 ∧
    parse_time_string (.str "30s") = some 30 ∧
    parse_time_string (.str "2m15s") = some 135 ∧
    parse_time_string (.str "") = none ∧
    parse_time_string (.str "") ≠ some 0 ∧
    (∀ s : String, parse_groups s = (none, none) → parse_time_string (.str s) = none) ∧
    (∀ q : ℚ, parse_time_string (.num q) = some q) := by
  have h1 : parse_string_secs "5m" = some 300 := by decide
  have h2 : parse_string_secs "30s" = some 30 := by decide
  have h3 : parse_string_secs "2m15s" = some 135 := by decide
  have h4 : parse_string_secs "" = none := by decide
  refine ⟨by simp [parse_time_string, h1], by simp [parse_time_string, h2],
    by simp [parse_time_string, h3], by simp [parse_time_string, h4],
    by simp [parse_time_string, h4], ?_, fun q => rfl⟩
  intro s h
  simp [parse_time_string, parse_string_secs, h]

/-- Witness for C3 at the concrete group-less string "zz". -/
theorem C3_witness :
    parse_groups "zz" = (none, none) ∧ parse_time_string (.str "zz") = none :=
  ⟨by decide, C3_parse_time_string_spec.2.2.2.2.2.1 "zz" (by decide)⟩

/-- Missing id, uid, cookie or profile on a task that is not disabled makes
`create_task` report the error and return the falsy None. -/
theorem create_task_none_of_missing (env : Env) (t : RawTask)
    (hen : t.enable ≠ some false)
    (h : t.id = none ∨ t.uid = none ∨ t.cookie = none ∨ t.profile = none) :
    create_task env t = none := by
  rw [create_task, if_neg hen]
  rcases h with h | h | h | h
  · rw [h]
  · rw [h]
    cases t.id <;> rfl
  · rw [h]
    cases t.id <;> try rfl
    cases t.uid <;> rfl
  · rw [h]
    cases t.id <;> try rfl
    cases t.uid <;> try rfl
    cases t.cookie <;> rfl

/-- One failing task anywhere in the list makes the whole load fail. -/
theorem load_tasks_list_false_of_mem (env : Env) (t : RawTask)
    (h : create_task env t = none) :
    ∀ pre post, load_tasks_list env (pre ++ t :: post) = false := by
  intro pre
  induction pre with
  | nil => intro post; simp [load_tasks_list, h]
  | cons p ps ih =>
    intro post
    rw [List.cons_append, load_tasks_list]
    cases create_task env p with
    | none => rfl
    | some _ => exact ih post

/-- C4: a task disabled with enable: false is skipped and counts as success,
leaving the rest of the load unaffected, while an enabled task missing id,
uid, cookie or profile aborts its registration, fails the entire load and
makes the process exit with status 1. -/
theorem C4_loader_failfast (env : Env) (t : RawTask) (pre post : List RawTask) :
    (t.enable = some false →
      create_task env t = some none ∧
      load_tasks_list env (t :: post) = load_tasks_list env post) ∧
    (t.enable ≠ some false →
      (t.id = none ∨ t.uid = none ∨ t.cookie = none ∨ t.profile = none) →
      create_task env t = none ∧
      load_tasks_list env (pre ++ t :: post) = false ∧
      startup_exit env (some (some (pre ++ t :: post))) = some 1) := by
  constructor
  · intro hdis
    have hct : create_task env t = some none := by rw [create_task, if_pos hdis]
    exact ⟨hct, by simp [load_tasks_list, hct]⟩
  · intro hen hmiss
    have hct := create_task_none_of_missing env t hen hmiss
    have hload := load_tasks_list_false_of_mem env t hct pre post
    exact ⟨hct, hload, by simp [startup_exit, load_tasks, hload]⟩

/-- Witness for C4 at a concrete one-task configuration missing its cookie. -/
theorem C4_witness :
    sampleTaskNoCookie.enable ≠ some false ∧
    create_task sampleEnv sampleTaskNoCookie = none ∧
    load_tasks_list sampleEnv [sampleTaskNoCookie] = false ∧
    startup_exit sampleEnv (some (some [sampleTaskNoCookie])) = some 1 := by
  have hen : sampleTaskNoCookie.enable ≠ some false := by decide
  have h := (C4_loader_failfast sampleEnv sampleTaskNoCookie [] []).2 hen
    (Or.inr (Or.inr (Or.inl rfl)))
  exact ⟨hen, h.1, h.2.1, h.2.2⟩

/-- Success of the retry loop means: some attempt k below the try budget got
a response, every earlier attempt raised, and the loop slept delay seconds
after each of those k failures. -/
theorem retry_from_ok_spec (delay : ℕ) (net : ℕ → Outcome) :
    ∀ (tries i elapsed : ℕ) (r : Response) (e : ℕ),
      retry_from delay net i tries elapsed = .ok (r, e) →
      ∃ k, k < tries ∧ net (i + k) = .ok r ∧ (∀ j, j < k → net (i + j) = .exn) ∧
        e = elapsed + delay * k := by
  intro tries
  induction tries with
  | zero => intro i elapsed r e h; simp [retry_from] at h
  | succ n ih =>
    intro i elapsed r e h
    cases hnet : net i with
    | ok r2 =>
      rw [retry_from, hnet] at h
      have h2 : (Except.ok (r2, elapsed) : Except Unit (Response × ℕ)) = .ok (r, e) := h
      simp only [Except.ok.injEq, Prod.mk.injEq] at h2
      refine ⟨0, Nat.succ_pos n, ?_, ?_, ?_⟩
      · rw [Nat.add_zero, hnet, h2.1]
      · intro j hj; exact absurd hj (Nat.not_lt_zero j)
      · rw [← h2.2]; ring
    | exn =>
      rw [retry_from, hnet] at h
      obtain ⟨k, hk, hknet, hprev, he⟩ := ih (i + 1) (elapsed + delay) r e h
      refine ⟨k + 1, by omega, ?_, ?_, ?_⟩
      · rw [show i + (k + 1) = i + 1 + k by omega]; exact hknet
      · intro j hj
        cases j with
        | zero => rw [Nat.add_zero]; exact hnet
        | succ j2 =>
          rw [show i + (j2 + 1) = i + 1 + j2 by omega]
          exact hprev j2 (by omega)
      · rw [he]; ring

/-- When every attempt within the try budget raises, the loop re-raises. -/
theorem retry_from_exhaust (delay : ℕ) (net : ℕ → Outcome) :
    ∀ (tries i elapsed : ℕ), (∀ k, k < tries → net (i + k) = .exn) →
      retry_from delay net i tries elapsed = .error () := by
  intro tries
  induction tries with
  | zero => intro i elapsed _; rfl
  | succ n ih =>
    intro i elapsed h
    have h0 : net i = .exn := by
      have := h 0 (Nat.succ_pos n)
      rwa [Nat.add_zero] at this
    rw [retry_from, h0]
    exact ih (i + 1) (elapsed + delay)
      (fun k hk => by rw [show i + 1 + k = i + (k + 1) by omega]; exact h (k + 1) (by omega))

/-- C6: the submitter retries only on transport failures, up to 10 attempts
separated by fixed 10-second sleeps, re-raising after the tenth; a response
of any HTTP status, error statuses included, ends the loop and is treated as
a success, the body being passed on to the caller and the deferred job still
completing normally. -/
theorem C6_retry_spec (net : ℕ → Outcome) :
    (∀ r e, send_request_with_retry net = .ok (r, e) →
      ∃ k, k < 10 ∧ net k = .ok r ∧ (∀ j, j < k → net j = .exn) ∧ e = 10 * k) ∧
    ((∀ k, k < 10 → net k = .exn) → send_request_with_retry net = .error ()) ∧
    (∀ r, net 0 = .ok r → send_request_with_retry net = .ok (r, 0)) ∧
    (∀ (fsRead : String → Dict) (p : TaskPayload) (now : Date) (epoch : ℕ) r,
      net 0 = .ok r →
      do_task fsRead p true now epoch net =
        .ok ((post_body (fsRead p.profile_path) p.uid (fmtYYYYMMDD now) (toString epoch),
          log_task p.id (fmtYYYYMMDD now)
            (post_body (fsRead p.profile_path) p.uid (fmtYYYYMMDD now) (toString epoch))
            r.body), some Sentinel.cancelJob)) := by
  refine ⟨?_, ?_, ?_, ?_⟩
  · intro r e h
    obtain ⟨k, hk, hknet, hprev, he⟩ := retry_from_ok_spec 10 net 10 0 0 r e h
    refine ⟨k, hk, by simpa using hknet, fun j hj => by simpa using hprev j hj, by omega⟩
  · intro h
    exact retry_from_exhaust 10 net 10 0 0 (fun k hk => by simpa using h k hk)
  · intro r h
    simp [send_request_with_retry, retry_from, h]
  · intro fsRead p now epoch r h
    simp [do_task, send_request, send_request_with_retry, retry_from, h]

/-- Witness for C6: a 500-status response on the first attempt is returned
at once, with no sleep, as a success. -/
theorem C6_witness :
    (fun _ : ℕ => Outcome.ok ⟨500, .s "error"⟩) 0 = Outcome.ok ⟨500, .s "error"⟩ ∧
    send_request_with_retry (fun _ : ℕ => Outcome.ok ⟨500, .s "error"⟩) =
      .ok (⟨500, .s "error"⟩, 0) :=
  ⟨rfl, (C6_retry_spec _).2.2.1 _ rfl⟩

/-- C7: the POST body is the profile mapping merged with the user id at uid,
the %Y%m%d local date at date, the epoch-seconds timestamp at created and
the fixed form identifier 8749065 at id; after a successful request a record
(task_id, payload, response) is written under a name keyed by the task id
and the date. -/
theorem C7_submission_spec (task_id : Val) (data : Dict) (uid : Val) (now : Date)
    (epoch : ℕ) (net : ℕ → Outcome) (r : Response) (e : ℕ)
    (hnet : send_request_with_retry net = .ok (r, e)) :
    send_request task_id data uid now epoch net =
      some (post_body data uid (fmtYYYYMMDD now) (toString epoch),
        log_task task_id (fmtYYYYMMDD now)
          (post_body data uid (fmtYYYYMMDD now) (toString epoch)) r.body) ∧
    post_body data uid (fmtYYYYMMDD now) (toString epoch) "uid" = some uid ∧
    post_body data uid (fmtYYYYMMDD now) (toString epoch) "date" =
      some (.s (fmtYYYYMMDD now)) ∧
    post_body data uid (fmtYYYYMMDD now) (toString epoch) "created" =
      some (.s (toString epoch)) ∧
    post_body data uid (fmtYYYYMMDD now) (toString epoch) "id" = some (.i 8749065) ∧
    (∀ k, k ≠ "uid" → k ≠ "date" → k ≠ "created" → k ≠ "id" →
      post_body data uid (fmtYYYYMMDD now) (toString epoch) k = data k) ∧
    (log_task task_id (fmtYYYYMMDD now)
        (post_body data uid (fmtYYYYMMDD now) (toString epoch)) r.body).name =
      "report_" ++ valToString task_id ++ "_" ++ fmtYYYYMMDD now ++ ".log" ∧
    (log_task task_id (fmtYYYYMMDD now)
        (post_body data uid (fmtYYYYMMDD now) (toString epoch)) r.body).record =
      { task_id := task_id,
        payload := post_body data uid (fmtYYYYMMDD now) (toString epoch),
        response := r.body } := by
  refine ⟨by simp [send_request, hnet], ?_, ?_, ?_, ?_, ?_, rfl, rfl⟩
  · simp [post_body, dinsert]
  · simp [post_body, dinsert]
  · simp [post_body, dinsert]
  · simp [post_body, dinsert]
  · intro k h1 h2 h3 h4
    simp [post_body, dinsert, h1, h2, h3, h4]

/-- Witness for C7 at concrete inputs: one profile field, a fixed date and a
network that answers at once. -/
theorem C7_witness :
    send_request_with_retry (fun _ : ℕ => Outcome.ok ⟨200, .s "done"⟩) =
      .ok (⟨200, .s "done"⟩, 0) ∧
    send_request (.i 1) (fun k => if k = "temperature" then some (.s "36.5") else none)
      (.i 42) ⟨2020, 9, 27⟩ 1601000000 (fun _ : ℕ => Outcome.ok ⟨200, .s "done"⟩) =
      some (post_body (fun k => if k = "temperature" then some (.s "36.5") else none)
          (.i 42) (fmtYYYYMMDD ⟨2020, 9, 27⟩) (toString 1601000000),
        log_task (.i 1) (fmtYYYYMMDD ⟨2020, 9, 27⟩)
          (post_body (fun k => if k = "temperature" then some (.s "36.5") else none)
            (.i 42) (fmtYYYYMMDD ⟨2020, 9, 27⟩) (toString 1601000000)) (.s "done")) := by
  have h : send_request_with_retry (fun _ : ℕ => Outcome.ok ⟨200, .s "done"⟩) =
      .ok (⟨200, .s "done"⟩, 0) := rfl
  exact ⟨h, (C7_submission_spec (.i 1) _ (.i 42) ⟨2020, 9, 27⟩ 1601000000 _ _ 0 h).1⟩

/-- C10: the four fixed fields always override same-named profile fields,
because the profile mapping is spread first in the dict display. -/
theorem C10_fixed_override (data : Dict) (uid : Val) (date created : String)
    (h : (data "uid").isSome ∨ (data "date").isSome ∨ (data "created").isSome ∨
      (data "id").isSome) :
    post_body data uid date created "uid" = some uid ∧
    post_body data uid date created "date" = some (.s date) ∧
    post_body data uid date created "created" = some (.s created) ∧
    post_body data uid date created "id" = some (.i 8749065) := by
  refine ⟨?_, ?_, ?_, ?_⟩ <;> simp [post_body, dinsert]

/-- Witness for C10: a profile that shadows uid still loses to the task uid. -/
theorem C10_witness :
    ((fun k => if k = "uid" then some (Val.s "shadow") else none : Dict) "uid").isSome ∧
    post_body (fun k => if k = "uid" then some (Val.s "shadow") else none)
      (.i 42) "20200927" "1601000000" "uid" = some (.i 42) := by
  have h : ((fun k => if k = "uid" then some (Val.s "shadow") else none : Dict) "uid").isSome :=
    by decide
  exact ⟨h, (C10_fixed_override _ (.i 42) "20200927" "1601000000" (Or.inl h)).1⟩

/-- C9: the offset updater leaves the module global untouched and only
prints the computed difference, and the scheduling decision of
`do_task_check` is the same whatever the stored offset. -/
theorem C9_offset_unused (g g2 : Globals) (serverTime localTime : ℝ) :
    (update_server_time_offset g serverTime localTime).1 = g ∧
    (update_server_time_offset g serverTime localTime).2 = serverTime - localTime ∧
    (∀ p us fuel, do_task_check g p us fuel = do_task_check g2 p us fuel) :=
  ⟨rfl, rfl, fun _ _ _ => rfl⟩

/-- C1: under a positive upper bound the sampler resamples whenever a draw
reaches the bound, so any value it returns is strictly below the bound;
under a non-positive bound it returns exactly the bound. -/
theorem C1_rayleigh_bound (sigma : ℝ) (upbound : EReal) (us : ℕ → ℝ)
    (hs : 0 < sigma) (hus : ∀ n, 0 ≤ us n ∧ us n < 1) :
    (0 < upbound →
      ∀ fuel y, rayleigh_dist sigma upbound us fuel = some y → y < upbound) ∧
    (upbound ≤ 0 →
      ∀ fuel, rayleigh_dist sigma upbound us (fuel + 1) = some upbound) := by
  constructor
  · intro hub fuel y h
    exact rayleigh_dist_lt_of_pos sigma upbound hub fuel us y h
  · intro hub fuel
    exact rayleigh_dist_nonpos_bound sigma upbound us hs.le hub fuel

/-- Witness for C1 at sigma = 1, bound = 0 and the constant-zero stream. -/
theorem C1_witness :
    (0 : ℝ) < 1 ∧ (∀ n : ℕ, (0 : ℝ) ≤ 0 ∧ (0 : ℝ) < 1) ∧
    rayleigh_dist 1 0 (fun _ => 0) 1 = some 0 :=
  ⟨by norm_num, fun _ => by norm_num,
    (C1_rayleigh_bound 1 0 (fun _ => 0) (by norm_num) (fun _ => by norm_num)).2
      (le_refl 0) 0⟩

/-- C5 as stated is false: with sigma = 1 and upper bound -1 the sampler
returns exactly -1, which is negative. -/
theorem C5_counterexample :
    rayleigh_dist 1 ((-1 : ℝ) : EReal) (fun _ => 0) 1 = some ((-1 : ℝ) : EReal) ∧
    ¬ (0 : EReal) ≤ ((-1 : ℝ) : EReal) := by
  constructor
  · exact rayleigh_dist_nonpos_bound 1 _ _ zero_le_one
      (by exact_mod_cast (by norm_num : (-1 : ℝ) ≤ 0)) 0
  · rw [← EReal.coe_zero, EReal.coe_le_coe_iff]
    norm_num

/-- C5 amended: for sigma > 0 and a non-negative upper bound, the default
unbounded case included, every value the sampler returns is non-negative;
with a negative bound the sampler returns the bound itself, a negative
delay. -/
theorem C5_amended_nonneg (sigma : ℝ) (upbound : EReal)
    (hs : 0 < sigma) (hub : 0 ≤ upbound) :
    ∀ (fuel : ℕ) (us : ℕ → ℝ) (y : EReal),
      rayleigh_dist sigma upbound us fuel = some y → 0 ≤ y := by
  intro fuel
  induction fuel with
  | zero => intro us y h; simp [rayleigh_dist] at h
  | succ n ih =>
    intro us y h
    rw [rayleigh_dist] at h
    by_cases hx : upbound ≤ rayleighDraw sigma (us 0)
    · by_cases hpos : (0 : EReal) < upbound
      · rw [if_pos hx, if_pos hpos] at h
        exact ih _ y h
      · rw [if_pos hx, if_neg hpos] at h
        cases h
        exact hub
    · rw [if_neg hx] at h
      cases h
      exact rayleighDraw_nonneg sigma (us 0) hs.le

/-- Witness for C5 at sigma = 1, bound = 0 and the constant-zero stream. -/
theorem C5_witness :
    (0 : ℝ) < 1 ∧ (0 : EReal) ≤ 0 ∧ (0 : EReal) ≤ 0 :=
  ⟨by norm_num, le_refl 0,
    C5_amended_nonneg 1 0 (by norm_num) (le_refl 0) 1 (fun _ => 0) 0
      (rayleigh_dist_nonpos_bound 1 0 (fun _ => 0) zero_le_one (le_refl 0) 0)⟩

/-- C2: the submission is deferred, through a follow-up job created with
cancel_job=True that returns the self-cancelling sentinel after firing,
exactly when both sigma and the upper bound exceed 5 seconds, and happens
immediately and synchronously otherwise; sigma=3, upbound=10 gives immediate
execution, sigma=10, upbound=20 deferred execution. -/
theorem C2_jitter_gate (g : Globals) (p : TaskPayload) (us : ℕ → ℝ) (fuel : ℕ) :
    (do_task_check g p us fuel = some .immediate ↔
      ¬(5 < p.rayleigh_sigma ∧ 5 < p.rayleigh_upbound)) ∧
    (∀ d c, do_task_check g p us fuel = some (.deferred d c) →
      (5 < p.rayleigh_sigma ∧ 5 < p.rayleigh_upbound) ∧ c = true) ∧
    ((5 < p.rayleigh_sigma ∧ 5 < p.rayleigh_upbound) →
      ∀ x, rayleigh_dist ((p.rayleigh_sigma : ℝ)) (((p.rayleigh_upbound : ℝ) : EReal))
          us fuel = some x →
        do_task_check g p us fuel = some (.deferred ⌊x.toReal⌋ true)) ∧
    (∀ (fsRead : String → Dict) (now : Date) (epoch : ℕ) (net : ℕ → Outcome) res,
      do_task fsRead p true now epoch net = .ok res → res.2 = some .cancelJob) ∧
    (p.rayleigh_sigma = 3 → p.rayleigh_upbound = 10 →
      do_task_check g p us fuel = some .immediate) ∧
    (p.rayleigh_sigma = 10 → p.rayleigh_upbound = 20 →
      ∀ x, rayleigh_dist ((p.rayleigh_sigma : ℝ)) (((p.rayleigh_upbound : ℝ) : EReal))
          us fuel = some x →
        ∃ d, do_task_check g p us fuel = some (.deferred d true)) := by
  refine ⟨?_, ?_, ?_, ?_, ?_, ?_⟩
  · by_cases hgate : 5 < p.rayleigh_sigma ∧ 5 < p.rayleigh_upbound
    · simp only [do_task_check, if_pos hgate]
      cases hsamp : rayleigh_dist ((p.rayleigh_sigma : ℝ))
          (((p.rayleigh_upbound : ℝ) : EReal)) us fuel with
      | none => simp [hgate]
      | some x => simp [hgate]
    · simp [do_task_check, if_neg hgate, hgate]
  · intro d c h
    by_cases hgate : 5 < p.rayleigh_sigma ∧ 5 < p.rayleigh_upbound
    · refine ⟨hgate, ?_⟩
      rw [do_task_check, if_pos hgate] at h
      cases hsamp : rayleigh_dist ((p.rayleigh_sigma : ℝ))
          (((p.rayleigh_upbound : ℝ) : EReal)) us fuel with
      | none => rw [hsamp] at h; simp at h
      | some x => rw [hsamp] at h; simp at h; exact h.2
    · rw [do_task_check, if_neg hgate] at h
      simp at h
  · intro hgate x hx
    rw [do_task_check, if_pos hgate, hx]
  · intro fsRead now epoch net res h
    rw [do_task] at h
    cases hsr : send_request p.id (fsRead p.profile_path) p.uid now epoch net with
    | none => rw [hsr] at h; simp at h
    | some v =>
      rw [hsr] at h
      have h2 : (Except.ok (v, if true then some Sentinel.cancelJob else none) :
          Except Unit ((Dict × LogFile) × Option Sentinel)) = .ok res := h
      simp only [if_true, Except.ok.injEq] at h2
      rw [← h2]
  · intro h3 h10
    have hgate : ¬(5 < p.rayleigh_sigma ∧ 5 < p.rayleigh_upbound) := by
      rw [h3, h10]; norm_num
    simp [do_task_check, hgate]
  · intro h10 h20 x hx
    have hgate : 5 < p.rayleigh_sigma ∧ 5 < p.rayleigh_upbound := by
      rw [h10, h20]; norm_num
    exact ⟨⌊x.toReal⌋, by rw [do_task_check, if_pos hgate, hx]⟩

/-- Witness for C2 at a concrete payload with sigma = 3, upbound = 10. -/
theorem C2_witness :
    ((⟨.i 1, .i 42, .s "abc", "/data/p.yaml", "07:00", 3, 10⟩ :
        TaskPayload).rayleigh_sigma = 3) ∧
    do_task_check ⟨0⟩ ⟨.i 1, .i 42, .s "abc", "/data/p.yaml", "07:00", 3, 10⟩
      (fun _ => 0) 0 = some Action.immediate :=
  ⟨rfl, (C2_jitter_gate ⟨0⟩ ⟨.i 1, .i 42, .s "abc", "/data/p.yaml", "07:00", 3, 10⟩
    (fun _ => 0) 0).2.2.2.2.1 rfl rfl⟩

/-- Acceptance condition of the rejection sampling: a uniform draw strictly
between exp(-B^2/(2 sigma^2)) and 1 yields a value strictly below B. -/
theorem rayleighDraw_lt_of_gt (sigma B u : ℝ) (hs : 0 < sigma) (hB : 0 < B)
    (hu1 : u < 1) (ht : Real.exp (-(B ^ 2) / (2 * sigma ^ 2)) < u) :
    rayleighDraw sigma u < (B : EReal) := by
  have hu0 : 0 < u := lt_trans (Real.exp_pos _) ht
  rw [rayleighDraw, if_pos hu0, EReal.coe_lt_coe_iff]
  have hlog : -(B ^ 2) / (2 * sigma ^ 2) < Real.log u :=
    (Real.lt_log_iff_exp_lt hu0).mpr ht
  have hs2 : (0 : ℝ) < sigma ^ 2 := by positivity
  have hA : -(B ^ 2) < Real.log u * (2 * sigma ^ 2) :=
    (div_lt_iff₀ (by positivity)).mp hlog
  have hsq : -2 * Real.log u < (B / sigma) ^ 2 := by
    rw [div_pow, lt_div_iff₀ hs2]
    nlinarith [hA]
  have hsqrt : Real.sqrt (-2 * Real.log u) < B / sigma :=
    (Real.sqrt_lt' (by positivity)).mpr hsq
  calc sigma * Real.sqrt (-2 * Real.log u) < sigma * (B / sigma) :=
        mul_lt_mul_of_pos_left hsqrt hs
    _ = B := by field_simp

/-- Fuel n+1 suffices for the sampler to return whenever the draw at index n
is accepted, since every earlier iteration either returns or recurses. -/
theorem rayleigh_dist_isSome_of_accept (sigma : ℝ) (upbound : EReal) (hub : 0 < upbound) :
    ∀ (n : ℕ) (us : ℕ → ℝ), rayleighDraw sigma (us n) < upbound →
      (rayleigh_dist sigma upbound us (n + 1)).isSome = true := by
  intro n
  induction n with
  | zero =>
    intro us hacc
    rw [rayleigh_dist, if_neg (not_le_of_lt hacc)]
    rfl
  | succ n ih =>
    intro us hacc
    rw [rayleigh_dist]
    by_cases h0 : upbound ≤ rayleighDraw sigma (us 0)
    · rw [if_pos h0, if_pos hub]
      exact ih (fun i => us (i + 1)) hacc
    · rw [if_neg h0]; rfl

/-- On the all-zero draw stream every iteration draws math.inf and rejects,
so no amount of fuel makes the sampler return: the recursion has no cap. -/
theorem rayleigh_dist_zero_stream (sigma : ℝ) (upbound : EReal) (hub : 0 < upbound) :
    ∀ fuel, rayleigh_dist sigma upbound (fun _ => 0) fuel = none := by
  intro fuel
  induction fuel with
  | zero => rfl
  | succ n ih =>
    have hx : upbound ≤ rayleighDraw sigma ((fun _ : ℕ => (0 : ℝ)) 0) := by
      simp [rayleighDraw]
    rw [rayleigh_dist, if_pos hx, if_pos hub]
    exact ih

/-- C8: over independent uniform-like draws, the event that some index draws
above the acceptance threshold has probability one (second Borel-Cantelli),
and on it the rejection sampling terminates with some finite fuel; yet the
recursion has no retry cap, as the all-zero stream rejects forever. -/
theorem C8_terminates_wp1 {Ω : Type} [MeasurableSpace Ω] (μ : MeasureTheory.Measure Ω)
    [MeasureTheory.IsProbabilityMeasure μ] (sigma B : ℝ) (hs : 0 < sigma) (hB : 0 < B)
    (X : ℕ → Ω → ℝ) (hlt1 : ∀ n ω, X n ω < 1)
    (hmeas : ∀ n, MeasurableSet {ω | Real.exp (-(B ^ 2) / (2 * sigma ^ 2)) < X n ω})
    (hind : ProbabilityTheory.iIndepSet
      (fun n => {ω | Real.exp (-(B ^ 2) / (2 * sigma ^ 2)) < X n ω}) μ)
    (c : ENNReal) (hc : c ≠ 0)
    (hprob : ∀ n, μ {ω | Real.exp (-(B ^ 2) / (2 * sigma ^ 2)) < X n ω} = c) :
    μ {ω | ∃ fuel, (rayleigh_dist sigma (B : EReal) (fun i => X i ω) fuel).isSome = true}
      = 1 ∧
    ∀ fuel, rayleigh_dist sigma (B : EReal) (fun _ => 0) fuel = none := by
  have hBE : (0 : EReal) < (B : EReal) := EReal.coe_pos.mpr hB
  constructor
  · have htsum :
        tsum (fun n : ℕ => μ {ω | Real.exp (-(B ^ 2) / (2 * sigma ^ 2)) < X n ω}) = ⊤ := by
      have heq : (fun n : ℕ => μ {ω | Real.exp (-(B ^ 2) / (2 * sigma ^ 2)) < X n ω}) =
          fun _ : ℕ => c := funext hprob
      rw [heq]
      exact ENNReal.tsum_const_eq_top_of_ne_zero hc
    have hlim : μ (Filter.limsup
        (fun n => {ω | Real.exp (-(B ^ 2) / (2 * sigma ^ 2)) < X n ω}) Filter.atTop) = 1 :=
      ProbabilityTheory.measure_limsup_eq_one hmeas hind htsum
    have hsub : Filter.limsup
        (fun n => {ω | Real.exp (-(B ^ 2) / (2 * sigma ^ 2)) < X n ω}) Filter.atTop ⊆
        {ω | ∃ fuel,
          (rayleigh_dist sigma (B : EReal) (fun i => X i ω) fuel).isSome = true} := by
      refine le_trans Filter.limsup_le_iSup (iSup_le fun n => ?_)
      intro ω hω
      have hacc : rayleighDraw sigma ((fun i => X i ω) n) < (B : EReal) :=
        rayleighDraw_lt_of_gt sigma B (X n ω) hs hB (hlt1 n ω) hω
      exact ⟨n + 1, rayleigh_dist_isSome_of_accept sigma (B : EReal) hBE n
        (fun i => X i ω) hacc⟩
    exact le_antisymm MeasureTheory.prob_le_one
      (hlim ▸ MeasureTheory.measure_mono hsub)
  · exact rayleigh_dist_zero_stream sigma (B : EReal) hBE

/-- Witness for C8 on a one-point probability space whose constant draw lies
strictly between the acceptance threshold and 1. -/
theorem C8_witness :
    MeasureTheory.Measure.dirac ()
      {ω : Unit | ∃ fuel, (rayleigh_dist 1 ((1 : ℝ) : EReal)
        (fun _ => Real.exp (-(1 : ℝ) / 4)) fuel).isSome = true} = 1 ∧
    ∀ fuel, rayleigh_dist 1 ((1 : ℝ) : EReal) (fun _ => 0) fuel = none := by
  have hthr : Real.exp (-((1 : ℝ) ^ 2) / (2 * (1 : ℝ) ^ 2)) < Real.exp (-(1 : ℝ) / 4) := by
    apply Real.exp_lt_exp.mpr
    norm_num
  have hsets : (fun _ : ℕ => {ω : Unit |
      Real.exp (-((1 : ℝ) ^ 2) / (2 * (1 : ℝ) ^ 2)) < Real.exp (-(1 : ℝ) / 4)}) =
      fun _ : ℕ => (Set.univ : Set Unit) := by
    funext n
    exact Set.eq_univ_of_forall fun ω => hthr
  have hmeas : ∀ n : ℕ, MeasurableSet {ω : Unit |
      Real.exp (-((1 : ℝ) ^ 2) / (2 * (1 : ℝ) ^ 2)) < Real.exp (-(1 : ℝ) / 4)} := by
    intro n
    rw [congrFun hsets n]
    exact MeasurableSet.univ
  have hind : ProbabilityTheory.iIndepSet (fun _ : ℕ => {ω : Unit |
      Real.exp (-((1 : ℝ) ^ 2) / (2 * (1 : ℝ) ^ 2)) < Real.exp (-(1 : ℝ) / 4)})
      (MeasureTheory.Measure.dirac ()) := by
    rw [hsets, ProbabilityTheory.iIndepSet_iff_meas_biInter (fun _ => MeasurableSet.univ)]
    intro S
    simp
  have hprob : ∀ n : ℕ, MeasureTheory.Measure.dirac () {ω : Unit |
      Real.exp (-((1 : ℝ) ^ 2) / (2 * (1 : ℝ) ^ 2)) < Real.exp (-(1 : ℝ) / 4)} = 1 := by
    intro n
    rw [congrFun hsets n]
    exact MeasureTheory.measure_univ
  exact C8_terminates_wp1 (MeasureTheory.Measure.dirac ()) 1 1 one_pos one_pos
    (fun _ _ => Real.exp (-(1 : ℝ) / 4))
    (fun n ω => Real.exp_lt_one_iff.mpr (by norm_num))
    hmeas hind 1 one_ne_zero hprob

end NRTool
